import Mathlib

/-!
Shallow embedding of the Student Performance Analyzer core
(`student.py`): the `DatabaseManager` record store over the two SQLite
tables `students` and `marks`, and the reporting computations of
`StudentPerformanceAnalyzer` (`calculate_grade`, `generate_analysis`,
`plot_grade_distribution`).

The store is modelled as in-memory lists standing for table contents,
with SQL `ORDER BY` rendered as stable insertion sort and the join in
`get_all_marks` rendered as an explicit nested traversal.  Mark values
are rationals (the Python floats in play are small decimals), and
`datetime.now()` is passed in as an explicit date-string argument.
-/

namespace StudentPerf

/-- Row of the `students` table: roll_no TEXT PRIMARY KEY, name, age,
class, created_date. -/
structure Student where
  roll_no : String
  name : String
  age : Int
  class_name : String
  created_date : String
deriving DecidableEq

/-- Row of the `marks` table: id INTEGER PRIMARY KEY AUTOINCREMENT,
roll_no, subject, marks REAL, max_marks REAL DEFAULT 100, exam_date. -/
structure MarkEntry where
  id : Nat
  roll_no : String
  subject : String
  marks : ℚ
  max_marks : ℚ
  exam_date : String
deriving DecidableEq

/-- The database file contents: both tables plus the AUTOINCREMENT
counter feeding `marks.id`. -/
structure DB where
  students : List Student
  marks : List MarkEntry
  next_id : Nat
deriving DecidableEq

/-- A row of the joined query in `get_all_marks`:
(s.roll_no, s.name, m.subject, m.marks). -/
abbrev Row := String × String × String × ℚ

/-- A row of the per-student query in `get_student_marks`:
(subject, marks, exam_date). -/
abbrev MarkRow := String × ℚ × String

/-- Lexicographic strict comparison of character lists: the order
SQLite uses on TEXT columns (its memcmp byte order agrees with
code-point order on UTF-8).  Written as a structural Bool function so
that concrete runs of the model evaluate inside the kernel. -/
def charListLt : List Char → List Char → Bool
  | [], [] => false
  | [], _ :: _ => true
  | _ :: _, [] => false
  | a :: as, b :: bs =>
      if a < b then true else if b < a then false else charListLt as bs

/-- Strict TEXT comparison on strings. -/
def strLt (a b : String) : Bool := charListLt a.data b.data

/-- Non-strict TEXT comparison on strings. -/
def strLe (a b : String) : Bool := !(strLt b a)

/-- Whether some `students` row already carries this roll number; the
condition under which the `INSERT` of `add_student` raises
`sqlite3.IntegrityError` on the PRIMARY KEY. -/
def hasRoll (db : DB) (r : String) : Bool :=
  db.students.any (fun s => s.roll_no == r)

/-- Number of `students` rows carrying a given roll number. -/
def countRoll (db : DB) (r : String) : Nat :=
  (db.students.filter (fun s => s.roll_no == r)).length

/-- Model of `DatabaseManager.add_student`: INSERT INTO students; on an
IntegrityError (duplicate primary key) the transaction leaves the
table untouched and the method returns False, otherwise the row is
stored with `created_date` stamped with the current date and the
method returns True. -/
def add_student (db : DB) (roll_no name : String) (age : Int)
    (class_name today : String) : DB × Bool :=
  if hasRoll db roll_no then (db, false)
  else
    ({ db with students :=
        db.students ++ [⟨roll_no, name, age, class_name, today⟩] }, true)

/-- Model of `DatabaseManager.add_marks`: INSERT INTO marks (roll_no, subject,
marks, exam_date); `max_marks` takes its DEFAULT 100 and `id` the next
AUTOINCREMENT value; always returns True. -/
def add_marks (db : DB) (roll_no subject : String) (marks : ℚ)
    (exam_date : String) : DB × Bool :=
  ({ db with
      marks := db.marks ++ [⟨db.next_id, roll_no, subject, marks, 100, exam_date⟩],
      next_id := db.next_id + 1 }, true)

/-- Comparison used by `ORDER BY roll_no` on the students table. -/
def rollLe (s t : Student) : Prop := strLe s.roll_no t.roll_no = true

instance : DecidableRel rollLe :=
  fun s t => inferInstanceAs (Decidable (strLe s.roll_no t.roll_no = true))

/-- Model of `DatabaseManager.get_all_students`: SELECT * FROM students ORDER BY
roll_no. -/
def get_all_students (db : DB) : List Student :=
  db.students.insertionSort rollLe

/-- Comparison used by `ORDER BY subject` on the per-student query. -/
def subjLe (a b : MarkRow) : Prop := strLe a.1 b.1 = true

instance : DecidableRel subjLe :=
  fun a b => inferInstanceAs (Decidable (strLe a.1 b.1 = true))

/-- Model of `DatabaseManager.get_student_marks`: SELECT subject, marks,
exam_date FROM marks WHERE roll_no = ? ORDER BY subject. -/
def get_student_marks (db : DB) (roll_no : String) : List MarkRow :=
  ((db.marks.filter (fun m => m.roll_no == roll_no)).map
    (fun m => (m.subject, m.marks, m.exam_date))).insertionSort subjLe

/-- Comparison used by `ORDER BY s.roll_no, m.subject` on the joined
query. -/
def rowLe (a b : Row) : Prop :=
  strLt a.1 b.1 = true ∨ (a.1 = b.1 ∧ strLe a.2.2.1 b.2.2.1 = true)

instance : DecidableRel rowLe := fun a b =>
  inferInstanceAs
    (Decidable (strLt a.1 b.1 = true ∨ (a.1 = b.1 ∧ strLe a.2.2.1 b.2.2.1 = true)))

/-- The inner join `students s JOIN marks m ON s.roll_no = m.roll_no`,
selecting s.roll_no, s.name, m.subject, m.marks. -/
def joinRows : List Student → List MarkEntry → List Row
  | [], _ => []
  | st :: rest, marks =>
      (marks.filter (fun mk => mk.roll_no == st.roll_no)).map
        (fun mk => (st.roll_no, st.name, mk.subject, mk.marks))
      ++ joinRows rest marks

/-- Model of `DatabaseManager.get_all_marks`: the joined query ordered by
s.roll_no, m.subject. -/
def get_all_marks (db : DB) : List Row :=
  (joinRows db.students db.marks).insertionSort rowLe

/-- Model of `DatabaseManager.delete_student`: DELETE FROM marks WHERE roll_no =
?; DELETE FROM students WHERE roll_no = ?; returns True. -/
def delete_student (db : DB) (roll_no : String) : DB × Bool :=
  ({ db with
      marks := db.marks.filter (fun m => !(m.roll_no == roll_no)),
      students := db.students.filter (fun s => !(s.roll_no == roll_no)) }, true)

/-- Model of `StudentPerformanceAnalyzer.calculate_grade`: the descending
threshold chain on the average. -/
def calculate_grade (avg : ℚ) : String :=
  if avg ≥ 90 then "A+"
  else if avg ≥ 80 then "A"
  else if avg ≥ 70 then "B"
  else if avg ≥ 60 then "C"
  else if avg ≥ 50 then "D"
  else "F"

/-- Model of `np.mean`: arithmetic mean of a list of values. -/
def mean (xs : List ℚ) : ℚ := xs.sum / xs.length

/-- Model of `np.min`: least element of a nonempty list (the empty case is never
reached, `generate_analysis` guards on a nonempty dataset). -/
def listMin : List ℚ → ℚ
  | [] => 0
  | [x] => x
  | x :: y :: t => min x (listMin (y :: t))

/-- Model of `np.max`: greatest element of a nonempty list (the empty case is
never reached, `generate_analysis` guards on a nonempty dataset). -/
def listMax : List ℚ → ℚ
  | [] => 0
  | [x] => x
  | x :: y :: t => max x (listMax (y :: t))

/-- Population variance, the square of `np.std` with its default
ddof=0: mean of the squared deviations from the mean. -/
def variance (xs : List ℚ) : ℚ :=
  mean (xs.map (fun x => (x - mean xs) ^ 2))

/-- Model of `np.std` with its default ddof=0: the population standard
deviation, the square root of the population variance. -/
noncomputable def std_dev (xs : List ℚ) : ℝ :=
  Real.sqrt ((variance xs : ℚ) : ℝ)

/-- The values sorted ascending, as `np.percentile` sorts its input. -/
def sortedRats (xs : List ℚ) : List ℚ :=
  xs.insertionSort (fun a b => a ≤ b)

/-- The fractional rank `p/100 * (n-1)` at which `np.percentile`
interpolates. -/
def rank (xs : List ℚ) (p : ℚ) : ℚ :=
  p / 100 * ((xs.length : ℚ) - 1)

/-- The interpolation step of `np.percentile` with its default linear
method: with `i = ⌊h⌋` and fraction `g = h - i`, the result is
`a[i] + g * (a[⌈h⌉] - a[i])` (for `g > 0` the ceiling is `i+1`; for
`g = 0` both indices coincide and the result is `a[i]`). -/
def interpNp (s : List ℚ) (h : ℚ) : ℚ :=
  s.getD (Int.toNat ⌊h⌋) 0
    + (h - (⌊h⌋ : ℚ)) * (s.getD (Int.toNat ⌈h⌉) 0 - s.getD (Int.toNat ⌊h⌋) 0)

/-- Modelled from the spec: the conventional linear-interpolation
percentile, "the value at fractional rank p/100 * (n-1), linearly
interpolated between the two neighbouring sorted elements" — the
weighted average `(1-g) * a[⌊h⌋] + g * a[⌊h⌋+1]` (when `⌊h⌋` is the
last index the upper neighbour degenerates to it). -/
def interpLinear (s : List ℚ) (h : ℚ) : ℚ :=
  (1 - (h - (⌊h⌋ : ℚ))) * s.getD (Int.toNat ⌊h⌋) 0
    + (h - (⌊h⌋ : ℚ)) * s.getD (Int.toNat ⌊h⌋ + 1) (s.getD (Int.toNat ⌊h⌋) 0)

/-- Model of `np.percentile xs p` as the code calls it (default linear
method). -/
def percentileNp (xs : List ℚ) (p : ℚ) : ℚ :=
  interpNp (sortedRats xs) (rank xs p)

/-- The conventional linear-interpolation percentile as the spec words
it, applied to the sorted sequence. -/
def percentileLinear (xs : List ℚ) (p : ℚ) : ℚ :=
  interpLinear (sortedRats xs) (rank xs p)

/-- First-occurrence deduplication, the key order a Python dict gives
when grouping rows by key in row order. -/
def dedupFirstAux : List String → List String → List String
  | _, [] => []
  | seen, x :: xs =>
      if seen.contains x then dedupFirstAux seen xs
      else x :: dedupFirstAux (x :: seen) xs

/-- Keys of the grouping dicts built in `generate_analysis` and
`plot_grade_distribution`, in first-occurrence order. -/
def dedupFirst (l : List String) : List String := dedupFirstAux [] l

/-- The mark values a joined-row list holds for one roll number: the
`data[roll_no]` mark list of the grouping loops. -/
def marksOf (rows : List Row) (r : String) : List ℚ :=
  (rows.filter (fun row => row.1 == r)).map (fun row => row.2.2.2)

/-- The mark values a joined-row list holds for one subject: the
`subjects_data[subject]` list of the subject-wise loop. -/
def subjectMarks (rows : List Row) (s : String) : List ℚ :=
  (rows.filter (fun row => row.2.2.1 == s)).map (fun row => row.2.2.2)

/-- Subject-wise mean as printed by `generate_analysis`. -/
def subjectMean (rows : List Row) (s : String) : ℚ :=
  mean (subjectMarks rows s)

/-- Model of `plot_grade_distribution`: group all marks by roll number, grade
each student from the mean of their marks, count per grade label in
the fixed order A+, A, B, C, D, F of the `grades` dict, and drop the
zero counts. -/
def gradeDistribution (rows : List Row) : List (String × Nat) :=
  let keys := dedupFirst (rows.map (fun row => row.1))
  (["A+", "A", "B", "C", "D", "F"].map (fun g =>
      (g, (keys.filter
            (fun r => calculate_grade (mean (marksOf rows r)) == g)).length))).filter
    (fun gp => gp.2 != 0)

/-- The numeric content of one student line of the STUDENT-WISE
PERFORMANCE table: roll number, average, total, grade. -/
abbrev StudentLine := String × ℚ × ℚ × String

/-- The numeric aggregates printed by `generate_analysis` when data is
present (the standard deviations, being square roots, live separately
in `std_dev`). -/
structure AnalysisReport where
  totalRecords : Nat
  totalStudents : Nat
  meanMarks : ℚ
  minMarks : ℚ
  maxMarks : ℚ
  p25 : ℚ
  p75 : ℚ
  studentLines : List StudentLine
deriving DecidableEq

/-- Model of `StudentPerformanceAnalyzer.generate_analysis`: reads the joined
marks; with no rows it writes "No data available for analysis!" and
returns without computing anything, otherwise it computes the overall
and per-student aggregates.  The database component of the result
records that the operation leaves the store untouched. -/
def generate_analysis (db : DB) : DB × Except String AnalysisReport :=
  let rows := get_all_marks db
  if rows = [] then (db, Except.error "No data available for analysis!")
  else
    let ms := rows.map (fun row => row.2.2.2)
    let keys := dedupFirst (rows.map (fun row => row.1))
    (db, Except.ok
      { totalRecords := rows.length
        totalStudents := keys.length
        meanMarks := mean ms
        minMarks := listMin ms
        maxMarks := listMax ms
        p25 := percentileNp ms 25
        p75 := percentileNp ms 75
        studentLines :=
          (keys.insertionSort (fun a b => strLe a b = true)).map (fun r =>
            (r, mean (marksOf rows r), (marksOf rows r).sum,
              calculate_grade (mean (marksOf rows r)))) })

/-- A fresh database as `create_tables` leaves it: both tables empty,
the AUTOINCREMENT counter at its first value. -/
def dbEmpty : DB := ⟨[], [], 1⟩

/-- The store after the scenario of §8 of the spec: students S1/Asha
and S2/Ravi, then marks S1/Math=95, S1/Science=85, S2/Math=55,
S2/Science=45 (dates are incidental to the scenario). -/
def scenarioDB : DB :=
  let d1 := (add_student dbEmpty "S1" "Asha" 20 "10A" "2026-10-12").1
  let d2 := (add_student d1 "S2" "Ravi" 21 "10A" "2026-10-12").1
  let d3 := (add_marks d2 "S1" "Math" 95 "2026-10-12").1
  let d4 := (add_marks d3 "S1" "Science" 85 "2026-10-12").1
  let d5 := (add_marks d4 "S2" "Math" 55 "2026-10-12").1
  (add_marks d5 "S2" "Science" 45 "2026-10-12").1

/-- The joined rows the scenario store yields, spelled out. -/
def sRows : List Row :=
  [("S1", "Asha", "Math", 95), ("S1", "Asha", "Science", 85),
   ("S2", "Ravi", "Math", 55), ("S2", "Ravi", "Science", 45)]

/-!  Supporting lemmas.  -/

theorem charListLt_iff : ∀ a b : List Char, charListLt a b = true ↔ List.Lex (· < ·) a b
  | [], [] => by
    simp only [charListLt, Bool.false_eq_true, false_iff]
    intro h; cases h
  | [], _ :: _ => by
    simp only [charListLt, true_iff]
    exact List.Lex.nil
  | _ :: _, [] => by
    simp only [charListLt, Bool.false_eq_true, false_iff]
    intro h; cases h
  | x :: xs, y :: ys => by
    by_cases h1 : x < y
    · simp only [charListLt, h1, if_pos, true_iff]
      exact List.Lex.rel h1
    · by_cases h2 : y < x
      · simp only [charListLt, h1, h2, if_neg, if_pos, not_false_iff,
          Bool.false_eq_true, false_iff]
        intro h
        cases h with
        | cons h => exact lt_irrefl x h2
        | rel h => exact h1 h
      · have hxy : x = y := le_antisymm (not_lt.mp h2) (not_lt.mp h1)
        subst hxy
        simp only [charListLt, h1, h2, if_neg, not_false_iff]
        rw [charListLt_iff xs ys]
        constructor
        · exact List.Lex.cons
        · intro h
          cases h with
          | cons h => exact h
          | rel h => exact absurd h h1

theorem strLt_iff (a b : String) : strLt a b = true ↔ a < b := by
  rw [strLt, charListLt_iff, String.lt_iff_toList_lt]
  exact Iff.rfl

theorem strLe_iff (a b : String) : strLe a b = true ↔ a ≤ b := by
  unfold strLe
  rw [Bool.not_eq_true']
  exact Bool.eq_false_iff.trans ((not_congr (strLt_iff b a)).trans not_lt)

instance : IsTotal Student rollLe :=
  ⟨fun a b => by simp only [rollLe, strLe_iff]; exact le_total _ _⟩

instance : IsTrans Student rollLe :=
  ⟨fun a b c => by simp only [rollLe, strLe_iff]; exact le_trans⟩

instance : IsTotal MarkRow subjLe :=
  ⟨fun a b => by simp only [subjLe, strLe_iff]; exact le_total _ _⟩

instance : IsTrans MarkRow subjLe :=
  ⟨fun a b c => by simp only [subjLe, strLe_iff]; exact le_trans⟩

theorem sorted_get_all_students (db : DB) :
    List.Sorted rollLe (get_all_students db) :=
  List.sorted_insertionSort _ _

theorem sorted_get_student_marks (db : DB) (r : String) :
    List.Sorted subjLe (get_student_marks db r) :=
  List.sorted_insertionSort _ _

theorem hasRoll_false_iff (db : DB) (r : String) :
    hasRoll db r = false ↔ ∀ s ∈ db.students, (s.roll_no == r) = false := by
  simp only [hasRoll, List.any_eq_false, Bool.not_eq_true]

theorem joinRows_append_orphan (students : List Student) (marks : List MarkEntry)
    (mk : MarkEntry) (h : ∀ st ∈ students, (mk.roll_no == st.roll_no) = false) :
    joinRows students (marks ++ [mk]) = joinRows students marks := by
  induction students with
  | nil => rfl
  | cons st rest ih =>
      have hst : (mk.roll_no == st.roll_no) = false := h st (List.mem_cons_self st rest)
      simp only [joinRows, List.filter_append, List.filter_cons, hst,
        Bool.false_eq_true, if_neg, not_false_iff, List.filter_nil, List.append_nil,
        ih (fun s hs => h s (List.mem_cons_of_mem st hs))]

theorem mem_joinRows (row : Row) :
    ∀ (students : List Student) (marks : List MarkEntry),
      row ∈ joinRows students marks ↔
        ∃ st ∈ students, ∃ mk ∈ marks,
          mk.roll_no = st.roll_no ∧ row = (st.roll_no, st.name, mk.subject, mk.marks)
  | [], marks => by simp [joinRows]
  | st :: rest, marks => by
    simp only [joinRows, List.mem_append, List.mem_map, List.mem_filter,
      beq_iff_eq, mem_joinRows row rest marks, List.mem_cons]
    constructor
    · rintro (⟨mk, ⟨hmk, hroll⟩, hrow⟩ | ⟨st2, hst2, mk, hmk, hroll, hrow⟩)
      · exact ⟨st, Or.inl rfl, mk, hmk, hroll, hrow.symm⟩
      · exact ⟨st2, Or.inr hst2, mk, hmk, hroll, hrow⟩
    · rintro ⟨st2, hst2 | hst2, mk, hmk, hroll, hrow⟩
      · exact Or.inl ⟨mk, ⟨hmk, hst2 ▸ hroll⟩, (hst2 ▸ hrow).symm⟩
      · exact Or.inr ⟨st2, hst2, mk, hmk, hroll, hrow⟩

theorem get_all_marks_addMarks_orphan (db : DB) (r s : String) (m : ℚ)
    (ed : String) (h : hasRoll db r = false) :
    get_all_marks (add_marks db r s m ed).1 = get_all_marks db := by
  have hall : ∀ st ∈ db.students,
      ((⟨db.next_id, r, s, m, 100, ed⟩ : MarkEntry).roll_no == st.roll_no) = false := by
    intro st hst
    have := (hasRoll_false_iff db r).mp h st hst
    simp only [beq_eq_false_iff_ne, ne_eq] at this ⊢
    exact fun hrs => this hrs.symm
  simp only [get_all_marks, add_marks]
  rw [joinRows_append_orphan _ _ _ hall]

theorem mem_le_listMax : ∀ (xs : List ℚ) (x : ℚ), x ∈ xs → x ≤ listMax xs
  | [], z, hz => absurd hz (List.not_mem_nil z)
  | [x], z, hz => by
      rw [List.mem_singleton.mp hz]; exact le_of_eq rfl
  | x :: y :: t, z, hz => by
      rcases List.mem_cons.mp hz with h | h
      · rw [h]; exact le_max_left _ _
      · exact le_trans (mem_le_listMax (y :: t) z h) (le_max_right _ _)

theorem listMin_le_mem : ∀ (xs : List ℚ) (x : ℚ), x ∈ xs → listMin xs ≤ x
  | [], z, hz => absurd hz (List.not_mem_nil z)
  | [x], z, hz => by
      rw [List.mem_singleton.mp hz]; exact le_of_eq rfl
  | x :: y :: t, z, hz => by
      rcases List.mem_cons.mp hz with h | h
      · rw [h]; exact min_le_left _ _
      · exact le_trans (min_le_right _ _) (listMin_le_mem (y :: t) z h)

theorem length_cast_pos (xs : List ℚ) (h : xs ≠ []) : 0 < (xs.length : ℚ) := by
  exact_mod_cast List.length_pos.mpr h

theorem mean_le_listMax (xs : List ℚ) (h : xs ≠ []) : mean xs ≤ listMax xs := by
  rw [mean, div_le_iff₀ (length_cast_pos xs h)]
  have hs := List.sum_le_card_nsmul xs (listMax xs) (fun x hx => mem_le_listMax xs x hx)
  rwa [nsmul_eq_mul, mul_comm] at hs

theorem listMin_le_mean (xs : List ℚ) (h : xs ≠ []) : listMin xs ≤ mean xs := by
  rw [mean, le_div_iff₀ (length_cast_pos xs h)]
  have hs := List.card_nsmul_le_sum xs (listMin xs) (fun x hx => listMin_le_mem xs x hx)
  rwa [nsmul_eq_mul, mul_comm] at hs

theorem mean_nonneg_of_nonneg (xs : List ℚ) (h : ∀ x ∈ xs, 0 ≤ x) : 0 ≤ mean xs :=
  div_nonneg (List.sum_nonneg h) (Nat.cast_nonneg _)

theorem variance_nonneg (xs : List ℚ) : 0 ≤ variance xs := by
  refine mean_nonneg_of_nonneg _ (fun x hx => ?_)
  rcases List.mem_map.mp hx with ⟨y, _, rfl⟩
  positivity

theorem interp_eq (s : List ℚ) (h : ℚ) (h0 : 0 ≤ h)
    (h1 : h ≤ (s.length : ℚ) - 1) : interpNp s h = interpLinear s h := by
  have hfl0 : (0 : ℤ) ≤ ⌊h⌋ := Int.floor_nonneg.mpr h0
  by_cases hg : h = (⌊h⌋ : ℚ)
  · have hz : h - (⌊h⌋ : ℚ) = 0 := by rw [← hg]; ring
    rw [interpNp, interpLinear, hz]
    ring
  · have hgpos : (0 : ℚ) < h - (⌊h⌋ : ℚ) :=
      sub_pos.mpr (lt_of_le_of_ne (Int.floor_le h) (Ne.symm hg))
    have hceil : ⌈h⌉ = ⌊h⌋ + 1 := by
      have hle : ⌈h⌉ ≤ ⌊h⌋ + 1 := Int.ceil_le_floor_add_one h
      have hlt : ⌊h⌋ < ⌈h⌉ := Int.lt_ceil.mpr (sub_pos.mp hgpos)
      omega
    have hhlt : h < (s.length : ℚ) - 1 := by
      rcases lt_or_eq_of_le h1 with hlt | heq
      · exact hlt
      · exfalso
        have hcast : (((s.length : ℤ) - 1 : ℤ) : ℚ) = ((s.length : ℚ) - 1 : ℚ) := by
          push_cast; ring
        have hfl : ⌊h⌋ = (s.length : ℤ) - 1 := by
          rw [heq, ← hcast, Int.floor_intCast]
        refine hg ?_
        rw [hfl, hcast]
        exact heq
    have hltZ : ⌊h⌋ < (s.length : ℤ) - 1 := by
      rw [Int.floor_lt]
      push_cast
      exact hhlt
    have hrange : Int.toNat ⌊h⌋ + 1 < s.length := by omega
    have hrange0 : Int.toNat ⌊h⌋ < s.length := by omega
    have hidx : Int.toNat ⌈h⌉ = Int.toNat ⌊h⌋ + 1 := by omega
    rw [interpNp, interpLinear, hidx,
      List.getD_eq_getElem s 0 hrange,
      List.getD_eq_getElem s (s.getD (Int.toNat ⌊h⌋) 0) hrange]
    ring

theorem rank_nonneg (xs : List ℚ) (p : ℚ) (hne : xs ≠ []) (hp : 0 ≤ p) :
    0 ≤ rank xs p := by
  refine mul_nonneg (div_nonneg hp (by norm_num)) ?_
  have h1 : (1 : ℚ) ≤ (xs.length : ℚ) := by
    exact_mod_cast List.length_pos.mpr hne
  linarith

theorem rank_le (xs : List ℚ) (p : ℚ) (hne : xs ≠ []) (_hp0 : 0 ≤ p)
    (hp1 : p < 100) : rank xs p ≤ (xs.length : ℚ) - 1 := by
  have h1 : (1 : ℚ) ≤ (xs.length : ℚ) := by
    exact_mod_cast List.length_pos.mpr hne
  have hple : p / 100 ≤ 1 := le_of_lt ((div_lt_one (by norm_num)).mpr hp1)
  calc rank xs p = p / 100 * ((xs.length : ℚ) - 1) := rfl
    _ ≤ 1 * ((xs.length : ℚ) - 1) :=
        mul_le_mul_of_nonneg_right hple (by linarith)
    _ = (xs.length : ℚ) - 1 := one_mul _

theorem length_sortedRats (xs : List ℚ) : (sortedRats xs).length = xs.length :=
  (List.perm_insertionSort _ xs).length_eq

theorem percentile_eq (xs : List ℚ) (p : ℚ) (hne : xs ≠ []) (hp0 : 0 ≤ p)
    (hp1 : p < 100) : percentileNp xs p = percentileLinear xs p := by
  rw [percentileNp, percentileLinear]
  refine interp_eq _ _ (rank_nonneg xs p hne hp0) ?_
  rw [length_sortedRats]
  exact rank_le xs p hne hp0 hp1

theorem scenario_rows : get_all_marks scenarioDB = sRows := by rfl

theorem scenario_marks_S1 : marksOf sRows "S1" = [95, 85] := by rfl

theorem scenario_marks_S2 : marksOf sRows "S2" = [55, 45] := by rfl

theorem scenario_grade_S1 : calculate_grade (mean (marksOf sRows "S1")) = "A+" := by
  rw [scenario_marks_S1]; norm_num [mean, calculate_grade]

theorem scenario_grade_S2 : calculate_grade (mean (marksOf sRows "S2")) = "D" := by
  rw [scenario_marks_S2]; norm_num [mean, calculate_grade]

/-!  The claims.  -/

/-- C1: the grade function is a pure, total function of the mean,
checking the fixed thresholds 90/80/70/60/50 in descending order with
the lower bound inclusive, and in particular grade(90)=A+,
grade(89.999)=A, grade(50)=D, grade(49.999)=F. -/
theorem calculate_grade_spec (avg : ℚ) :
    (90 ≤ avg → calculate_grade avg = "A+") ∧
    (80 ≤ avg → avg < 90 → calculate_grade avg = "A") ∧
    (70 ≤ avg → avg < 80 → calculate_grade avg = "B") ∧
    (60 ≤ avg → avg < 70 → calculate_grade avg = "C") ∧
    (50 ≤ avg → avg < 60 → calculate_grade avg = "D") ∧
    (avg < 50 → calculate_grade avg = "F") ∧
    calculate_grade 90 = "A+" ∧ calculate_grade (89999 / 1000) = "A" ∧
    calculate_grade 50 = "D" ∧ calculate_grade (49999 / 1000) = "F" := by
  refine ⟨fun h => ?_, fun h1 h2 => ?_, fun h1 h2 => ?_, fun h1 h2 => ?_,
    fun h1 h2 => ?_, fun h => ?_, ?_, ?_, ?_, ?_⟩
  · simp only [calculate_grade, ge_iff_le]
    rw [if_pos h]
  · simp only [calculate_grade, ge_iff_le]
    rw [if_neg (not_le.mpr h2), if_pos h1]
  · simp only [calculate_grade, ge_iff_le]
    rw [if_neg (not_le.mpr (by linarith)), if_neg (not_le.mpr h2), if_pos h1]
  · simp only [calculate_grade, ge_iff_le]
    rw [if_neg (not_le.mpr (by linarith)), if_neg (not_le.mpr (by linarith)),
      if_neg (not_le.mpr h2), if_pos h1]
  · simp only [calculate_grade, ge_iff_le]
    rw [if_neg (not_le.mpr (by linarith)), if_neg (not_le.mpr (by linarith)),
      if_neg (not_le.mpr (by linarith)), if_neg (not_le.mpr h2), if_pos h1]
  · simp only [calculate_grade, ge_iff_le]
    rw [if_neg (not_le.mpr (by linarith)), if_neg (not_le.mpr (by linarith)),
      if_neg (not_le.mpr (by linarith)), if_neg (not_le.mpr (by linarith)),
      if_neg (not_le.mpr h)]
  · norm_num [calculate_grade]
  · norm_num [calculate_grade]
  · norm_num [calculate_grade]
  · norm_num [calculate_grade]

/-- C1 witness: the boundary case 90 falls in the A+ bucket. -/
theorem calculate_grade_spec_witness :
    (90 : ℚ) ≤ 95 ∧ calculate_grade 95 = "A+" :=
  ⟨by norm_num, (calculate_grade_spec 95).1 (by norm_num)⟩

/-- C2: inserting a student whose roll number is already present fails
and leaves the store unchanged, so two insertions with the same roll
number leave exactly one student row for it. -/
theorem add_student_duplicate_spec (db : DB) (r n n2 c c2 t t2 : String)
    (a a2 : Int) :
    (hasRoll db r = true → add_student db r n a c t = (db, false)) ∧
    (hasRoll db r = false →
      (add_student (add_student db r n a c t).1 r n2 a2 c2 t2).2 = false ∧
      (add_student (add_student db r n a c t).1 r n2 a2 c2 t2).1 =
        (add_student db r n a c t).1 ∧
      countRoll (add_student (add_student db r n a c t).1 r n2 a2 c2 t2).1 r = 1) := by
  constructor
  · intro h
    simp [add_student, h]
  · intro h
    have h2 : hasRoll { db with students := db.students ++ [⟨r, n, a, c, t⟩] } r
        = true := by
      simp [hasRoll, List.any_append]
    have h3 : db.students.filter (fun s => s.roll_no == r) = [] := by
      refine List.filter_eq_nil_iff.mpr (fun s hs => ?_)
      simp [(hasRoll_false_iff db r).mp h s hs]
    refine ⟨?_, ?_, ?_⟩ <;>
      simp [add_student, h, h2, countRoll, List.filter_append, h3]

/-- C2 witness: on the empty store, adding roll S1 twice leaves one
row and the second call reports failure. -/
theorem add_student_duplicate_spec_witness :
    hasRoll dbEmpty "S1" = false ∧
    (add_student (add_student dbEmpty "S1" "Asha" 20 "10A" "d").1
        "S1" "Dup" 21 "10B" "d").2 = false ∧
    countRoll (add_student (add_student dbEmpty "S1" "Asha" 20 "10A" "d").1
        "S1" "Dup" 21 "10B" "d").1 "S1" = 1 := by
  have h := (add_student_duplicate_spec dbEmpty "S1" "Asha" "Dup" "10A" "10B"
    "d" "d" 20 21).2 (by rfl)
  exact ⟨by rfl, h.1, h.2.2⟩

/-- C3: on the §8 scenario store the reporting computations yield
overall mean 70, S1 average 90 with grade A+, S2 average 50 with grade
D, Math mean 75, and grade distribution exactly A+:1, D:1 with zero
counts omitted. -/
theorem scenario_report_spec :
    mean ((get_all_marks scenarioDB).map (fun row => row.2.2.2)) = 70 ∧
    mean (marksOf (get_all_marks scenarioDB) "S1") = 90 ∧
    calculate_grade (mean (marksOf (get_all_marks scenarioDB) "S1")) = "A+" ∧
    mean (marksOf (get_all_marks scenarioDB) "S2") = 50 ∧
    calculate_grade (mean (marksOf (get_all_marks scenarioDB) "S2")) = "D" ∧
    subjectMean (get_all_marks scenarioDB) "Math" = 75 ∧
    gradeDistribution (get_all_marks scenarioDB) = [("A+", 1), ("D", 1)] := by
  rw [scenario_rows]
  refine ⟨?_, ?_, scenario_grade_S1, ?_, scenario_grade_S2, ?_, ?_⟩
  · have h : sRows.map (fun row => row.2.2.2) = [95, 85, 55, 45] := by rfl
    rw [h]; norm_num [mean]
  · rw [scenario_marks_S1]; norm_num [mean]
  · rw [scenario_marks_S2]; norm_num [mean]
  · have h : subjectMarks sRows "Math" = [95, 55] := by rfl
    rw [subjectMean, h]; norm_num [mean]
  · have hk : dedupFirst (sRows.map (fun row => row.1)) = ["S1", "S2"] := by rfl
    simp only [gradeDistribution, hk, List.map_cons, List.map_nil,
      List.filter_cons, List.filter_nil, scenario_grade_S1, scenario_grade_S2]
    decide

/-- C4: `add_marks` succeeds for every roll number, existing or not;
the joined query holds exactly the rows whose roll number matches a
student, so orphan marks never appear in it. -/
theorem add_marks_orphan_spec (db : DB) (r s : String) (m : ℚ) (ed : String) :
    (add_marks db r s m ed).2 = true ∧
    (∀ row : Row, row ∈ get_all_marks db ↔
      ∃ st ∈ db.students, ∃ mk ∈ db.marks,
        mk.roll_no = st.roll_no ∧ row = (st.roll_no, st.name, mk.subject, mk.marks)) ∧
    (hasRoll db r = false →
      get_all_marks (add_marks db r s m ed).1 = get_all_marks db) := by
  refine ⟨rfl, fun row => ?_, fun h => get_all_marks_addMarks_orphan db r s m ed h⟩
  rw [get_all_marks, List.mem_insertionSort]
  exact mem_joinRows row db.students db.marks

/-- C4 witness: on the empty store, a mark for the nonexistent roll R1
is accepted yet leaves the joined query empty. -/
theorem add_marks_orphan_spec_witness :
    (add_marks dbEmpty "R1" "Math" 50 "2026-01-01").2 = true ∧
    hasRoll dbEmpty "R1" = false ∧
    get_all_marks (add_marks dbEmpty "R1" "Math" 50 "2026-01-01").1 =
      get_all_marks dbEmpty :=
  ⟨(add_marks_orphan_spec dbEmpty "R1" "Math" 50 "2026-01-01").1, rfl,
    (add_marks_orphan_spec dbEmpty "R1" "Math" 50 "2026-01-01").2.2 rfl⟩

/-- C5: `delete_student` succeeds unconditionally, afterwards the roll
number has no marks and no student row, and rows for every other roll
number are untouched. -/
theorem delete_student_spec (db : DB) (r r2 : String) :
    (delete_student db r).2 = true ∧
    get_student_marks (delete_student db r).1 r = [] ∧
    (∀ s ∈ get_all_students (delete_student db r).1, s.roll_no ≠ r) ∧
    (r2 ≠ r →
      get_student_marks (delete_student db r).1 r2 = get_student_marks db r2 ∧
      (delete_student db r).1.students.filter (fun s => s.roll_no == r2) =
        db.students.filter (fun s => s.roll_no == r2)) := by
  refine ⟨rfl, ?_, ?_, fun h2 => ⟨?_, ?_⟩⟩
  · have hnil :
        (db.marks.filter (fun mk => !(mk.roll_no == r))).filter
          (fun mk => mk.roll_no == r) = [] := by
      rw [List.filter_filter]
      refine List.filter_eq_nil_iff.mpr (fun mk _ => ?_)
      cases hmk : mk.roll_no == r <;> simp [hmk]
    simp [get_student_marks, delete_student, hnil]
  · intro s hs
    rw [get_all_students, List.mem_insertionSort] at hs
    simp only [delete_student, List.mem_filter, Bool.not_eq_true',
      beq_eq_false_iff_ne, ne_eq] at hs
    exact hs.2
  · have heq :
        (db.marks.filter (fun mk => !(mk.roll_no == r))).filter
          (fun mk => mk.roll_no == r2) =
        db.marks.filter (fun mk => mk.roll_no == r2) := by
      rw [List.filter_filter]
      refine List.filter_congr (fun mk _ => ?_)
      cases hmk : mk.roll_no == r2
      · simp
      · have : mk.roll_no = r2 := by exact_mod_cast beq_iff_eq.mp hmk
        have hmr : (mk.roll_no == r) = false := by
          rw [beq_eq_false_iff_ne, this]
          exact h2
        simp [hmr]
    simp [get_student_marks, delete_student, heq]
  · simp only [delete_student]
    rw [List.filter_filter]
    refine List.filter_congr (fun s _ => ?_)
    cases hs : s.roll_no == r2
    · simp
    · have : s.roll_no = r2 := by exact_mod_cast beq_iff_eq.mp hs
      have hsr : (s.roll_no == r) = false := by
        rw [beq_eq_false_iff_ne, this]
        exact h2
      simp [hsr]

/-- C5 witness: deleting S1 from the scenario store leaves the marks
of S2 untouched. -/
theorem delete_student_spec_witness :
    ("S2" : String) ≠ "S1" ∧
    get_student_marks (delete_student scenarioDB "S1").1 "S2" =
      get_student_marks scenarioDB "S2" :=
  ⟨by decide, ((delete_student_spec scenarioDB "S1" "S2").2.2.2 (by decide)).1⟩

/-- C6: after a successful insertion, `list_students` holds a record
with exactly the supplied fields and the insertion date, and the
sequence it returns is sorted ascending by roll number. -/
theorem add_student_roundtrip_spec (db : DB) (r n c t : String) (a : Int)
    (h : hasRoll db r = false) :
    (⟨r, n, a, c, t⟩ : Student) ∈ get_all_students (add_student db r n a c t).1 ∧
    List.Sorted (fun s s2 : Student => s.roll_no ≤ s2.roll_no)
      (get_all_students (add_student db r n a c t).1) := by
  constructor
  · rw [get_all_students, List.mem_insertionSort]
    simp [add_student, h]
  · exact (sorted_get_all_students _).imp (fun hle => (strLe_iff _ _).mp hle)

/-- C6 witness: inserting S1 into the empty store and listing returns
the record as supplied. -/
theorem add_student_roundtrip_spec_witness :
    hasRoll dbEmpty "S1" = false ∧
    (⟨"S1", "Asha", 20, "10A", "2026-10-12"⟩ : Student) ∈
      get_all_students (add_student dbEmpty "S1" "Asha" 20 "10A" "2026-10-12").1 :=
  ⟨rfl, (add_student_roundtrip_spec dbEmpty "S1" "Asha" "10A" "2026-10-12" 20 rfl).1⟩

/-- C7: on every nonempty sequence of mark values the overall
statistics satisfy min ≤ mean ≤ max, and the population standard
deviation (with its square, the population variance) is nonnegative. -/
theorem overall_stats_bounds_spec (xs : List ℚ) (h : xs ≠ []) :
    listMin xs ≤ mean xs ∧ mean xs ≤ listMax xs ∧
    0 ≤ variance xs ∧ 0 ≤ std_dev xs :=
  ⟨listMin_le_mean xs h, mean_le_listMax xs h, variance_nonneg xs,
    Real.sqrt_nonneg _⟩

/-- C7 witness: the bounds hold on the concrete sequence 2, 4. -/
theorem overall_stats_bounds_spec_witness :
    ([(2 : ℚ), 4] ≠ []) ∧
    (listMin [(2 : ℚ), 4] ≤ mean [(2 : ℚ), 4] ∧
      mean [(2 : ℚ), 4] ≤ listMax [(2 : ℚ), 4] ∧
      0 ≤ variance [(2 : ℚ), 4] ∧ 0 ≤ std_dev [(2 : ℚ), 4]) :=
  ⟨List.cons_ne_nil 2 [4], overall_stats_bounds_spec [2, 4] (List.cons_ne_nil 2 [4])⟩

/-- C8: on every nonempty sequence of mark values, the 25th and 75th
percentiles as the code computes them (np.percentile, default linear
method) equal the conventional linear-interpolation percentile of the
sorted sequence. -/
theorem percentile_linear_spec (xs : List ℚ) (h : xs ≠ []) :
    percentileNp xs 25 = percentileLinear xs 25 ∧
    percentileNp xs 75 = percentileLinear xs 75 :=
  ⟨percentile_eq xs 25 h (by norm_num) (by norm_num),
    percentile_eq xs 75 h (by norm_num) (by norm_num)⟩

/-- C8 witness: the two percentile computations agree on the concrete
sequence 1, 3. -/
theorem percentile_linear_spec_witness :
    ([(1 : ℚ), 3] ≠ []) ∧
    percentileNp [(1 : ℚ), 3] 25 = percentileLinear [(1 : ℚ), 3] 25 ∧
    percentileNp [(1 : ℚ), 3] 75 = percentileLinear [(1 : ℚ), 3] 75 :=
  ⟨List.cons_ne_nil 1 [3], percentile_linear_spec [1, 3] (List.cons_ne_nil 1 [3])⟩

/-- C9: when the joined marks are empty, analysis generation reports
the no-data notice instead of computing statistics, and the store is
unchanged. -/
theorem empty_dataset_notice_spec (db : DB) (h : get_all_marks db = []) :
    (generate_analysis db).1 = db ∧
    (generate_analysis db).2 = Except.error "No data available for analysis!" := by
  constructor <;> simp [generate_analysis, h]

/-- C9 witness: on the empty store the analysis reports the notice. -/
theorem empty_dataset_notice_spec_witness :
    get_all_marks dbEmpty = [] ∧
    (generate_analysis dbEmpty).2 =
      Except.error "No data available for analysis!" :=
  ⟨rfl, (empty_dataset_notice_spec dbEmpty rfl).2⟩

/-- C10: `marks_for` returns exactly the mark rows of the requested
roll number sorted ascending by subject, whether or not the student
exists; an orphan mark shows up there while the joined query ignores
it. -/
theorem get_student_marks_spec (db : DB) (r s : String) (m : ℚ) (ed : String) :
    (∀ e : MarkRow, e ∈ get_student_marks db r ↔
      ∃ mk ∈ db.marks, mk.roll_no = r ∧ e = (mk.subject, mk.marks, mk.exam_date)) ∧
    List.Sorted (fun e e2 : MarkRow => e.1 ≤ e2.1) (get_student_marks db r) ∧
    (hasRoll db r = false →
      (s, m, ed) ∈ get_student_marks (add_marks db r s m ed).1 r ∧
      get_all_marks (add_marks db r s m ed).1 = get_all_marks db) := by
  refine ⟨fun e => ?_, ?_, fun h => ⟨?_, get_all_marks_addMarks_orphan db r s m ed h⟩⟩
  · rw [get_student_marks, List.mem_insertionSort]
    simp only [List.mem_map, List.mem_filter, beq_iff_eq]
    constructor
    · rintro ⟨mk, ⟨hmk, hroll⟩, he⟩
      exact ⟨mk, hmk, hroll, he.symm⟩
    · rintro ⟨mk, hmk, hroll, he⟩
      exact ⟨mk, ⟨hmk, hroll⟩, he.symm⟩
  · exact (sorted_get_student_marks db r).imp (fun hle => (strLe_iff _ _).mp hle)
  · rw [get_student_marks, List.mem_insertionSort]
    simp [add_marks, List.filter_append]

/-- C10 witness: on the empty store, an orphan mark for R1 is visible
through `marks_for` yet absent from the joined query. -/
theorem get_student_marks_spec_witness :
    hasRoll dbEmpty "R1" = false ∧
    ("Math", (50 : ℚ), "2026-01-01") ∈
      get_student_marks (add_marks dbEmpty "R1" "Math" 50 "2026-01-01").1 "R1" ∧
    get_all_marks (add_marks dbEmpty "R1" "Math" 50 "2026-01-01").1 =
      get_all_marks dbEmpty :=
  ⟨rfl, ((get_student_marks_spec dbEmpty "R1" "Math" 50 "2026-01-01").2.2 rfl).1,
    ((get_student_marks_spec dbEmpty "R1" "Math" 50 "2026-01-01").2.2 rfl).2⟩

end StudentPerf
